import Mathlib

/-
  Verification development for the DirShare directory-replication program.

  The C++ sources are shallowly embedded: each definition below mirrors one
  function of the sources (file and function named in its doc comment).
  Strings are modelled as lists of characters, byte buffers as lists of
  naturals, maps (std::map / std::set) as association lists, and fallible
  system calls (write, unlink, utime) take an explicit failure oracle.
-/

/- ### Filename validation -/

/-- Helper: `hasPre p s` decides whether `p` is a prefix of `s`
(the character-list analogue of matching a pattern at the front). -/
def hasPre : List Char → List Char → Bool
  | [], _ => true
  | _ :: _, [] => false
  | p :: ps, c :: cs => p == c && hasPre ps cs

/-- Helper: `hasSub pat s` decides whether `pat` occurs as a contiguous
substring of `s`; it models `std::string::find(pat) != npos`. -/
def hasSub (pat : List Char) : List Char → Bool
  | [] => pat.isEmpty
  | c :: cs => hasPre pat (c :: cs) || hasSub pat cs

/-- Embeds `DirShare::is_valid_filename` from `FileUtils.cpp` (lines 160-192).
The C++ early-return reject chain is rendered as a conjunction of negated
reject conditions, in source order:
empty; the four separator-adjacent `".."` patterns (`"../"`, `"..\\"`,
`"/.."`, `"\\.."`); a leading `'/'` or `'\\'`; `filename[1] == ':'` when the
length is at least 2 (rendered via `s[1]?`); any `'/'` or `'\\'` anywhere. -/
def is_valid_filename (s : List Char) : Bool :=
  !s.isEmpty &&
  !(hasSub ['.', '.', '/'] s || hasSub ['.', '.', '\\'] s ||
    hasSub ['/', '.', '.'] s || hasSub ['\\', '.', '.'] s) &&
  !(s[0]? == some '/' || s[0]? == some '\\') &&
  !(s[1]? == some ':') &&
  !(s.contains '/' || s.contains '\\')

/-- Embeds `FileEventListenerImpl::is_valid_filename` from
`FileEventListenerImpl.cpp` (lines 285-313).  Reject conditions in source
order: empty; leading `'/'` or `'\\'`; drive letter (`s[1] == ':'` when long
enough); any `".."` substring; any `'/'` or `'\\'` anywhere. -/
def listener_is_valid_filename (s : List Char) : Bool :=
  !s.isEmpty &&
  !(s[0]? == some '/' || s[0]? == some '\\') &&
  !(s[1]? == some ':') &&
  !(hasSub ['.', '.'] s) &&
  !(s.contains '/' || s.contains '\\')

/-- Stated from the spec's words (§3 "Filename" and §8 "Filename validity"),
for comparison with the validators embedded from the sources: accept iff
non-empty, no `".."` substring, no `'/'` or `'\\'`, not beginning with `'/'`
or `'\\'`, and `s[1] != ':'` when the length is at least 2. -/
def spec_filename_rule (s : List Char) : Bool :=
  !s.isEmpty &&
  !(hasSub ['.', '.'] s) &&
  !(s.contains '/' || s.contains '\\') &&
  !(s[0]? == some '/' || s[0]? == some '\\') &&
  !(s[1]? == some ':')

/- ### Facts about substring search -/

theorem hasPre_subset {p s : List Char} (h : hasPre p s = true) :
    ∀ c ∈ p, c ∈ s := by
  induction p generalizing s with
  | nil => intro c hc; cases hc
  | cons x xs ih =>
    cases s with
    | nil => simp [hasPre] at h
    | cons y ys =>
      simp only [hasPre, Bool.and_eq_true, beq_iff_eq] at h
      intro c hc
      rcases List.mem_cons.mp hc with rfl | hc
      · exact List.mem_cons.mpr (Or.inl h.1)
      · exact List.mem_cons.mpr (Or.inr (ih h.2 c hc))

theorem hasSub_subset {pat s : List Char} (h : hasSub pat s = true) :
    ∀ c ∈ pat, c ∈ s := by
  induction s with
  | nil =>
    intro c hc
    simp only [hasSub, List.isEmpty_iff] at h
    subst h; cases hc
  | cons y ys ih =>
    simp only [hasSub, Bool.or_eq_true] at h
    intro c hc
    rcases h with h | h
    · exact hasPre_subset h c hc
    · exact List.mem_cons.mpr (Or.inr (ih h c hc))

theorem mem_of_getElem?_eq {s : List Char} {i : Nat} {c : Char}
    (h : s[i]? = some c) : c ∈ s := by
  induction s generalizing i with
  | nil => simp at h
  | cons x xs ih =>
    cases i with
    | zero => simp_all
    | succ j =>
      simp only [List.getElem?_cons_succ] at h
      exact List.mem_cons.mpr (Or.inr (ih h))

/-- C3 counterexample: the string `"a..b"` contains the substring `".."`,
so the stated rule rejects it (and so does the inbound listener validator),
yet the FileUtils validator used for outbound directory listings accepts it.
The claimed rule is therefore not what `FileUtils.cpp` implements, and the
rule is not applied uniformly. -/
theorem filename_rule_counterexample :
    is_valid_filename ['a', '.', '.', 'b'] = true ∧
    listener_is_valid_filename ['a', '.', '.', 'b'] = false ∧
    spec_filename_rule ['a', '.', '.', 'b'] = false := by
  decide

/-- C3 (amended): the inbound listener validator implements exactly the
stated rule; the outbound FileUtils validator rejects `".."` only when it is
adjacent to a path separator, and since it also rejects every `'/'` and
`'\\'`, it accepts `s` iff `s` is non-empty, contains no `'/'` or `'\\'`,
and `s[1] != ':'` when the length is at least 2 — so strings containing
`".."` with no separator (such as `"a..b"` or `".."`) are accepted by the
outbound validator but rejected by the inbound one. -/
theorem filename_validators_characterized (s : List Char) :
    listener_is_valid_filename s = spec_filename_rule s ∧
    is_valid_filename s =
      (!s.isEmpty && !(s.contains '/' || s.contains '\\') &&
       !(s[1]? == some ':')) := by
  constructor
  · unfold listener_is_valid_filename spec_filename_rule
    cases h1 : s.isEmpty <;> cases h2 : (s[0]? == some '/' || s[0]? == some '\\') <;>
      cases h3 : (s[1]? == some ':') <;> cases h4 : hasSub ['.', '.'] s <;>
      cases h5 : (s.contains '/' || s.contains '\\') <;> simp
  · rcases h5 : (s.contains '/' || s.contains '\\') with _ | _
    · -- no separators anywhere: the traversal and leading-separator
      -- rejections can never fire
      rw [Bool.or_eq_false_iff] at h5
      have hs : ('/' : Char) ∉ s := by
        intro hm
        have h := List.elem_iff.mpr hm
        rw [show s.elem '/' = s.contains '/' from rfl, h5.1] at h
        exact Bool.false_ne_true h
      have hb : ('\\' : Char) ∉ s := by
        intro hm
        have h := List.elem_iff.mpr hm
        rw [show s.elem '\\' = s.contains '\\' from rfl, h5.2] at h
        exact Bool.false_ne_true h
      have t1 : hasSub ['.', '.', '/'] s = false := by
        rcases ht : hasSub ['.', '.', '/'] s with _ | _
        · rfl
        · exact absurd (hasSub_subset ht '/' (by simp)) hs
      have t2 : hasSub ['.', '.', '\\'] s = false := by
        rcases ht : hasSub ['.', '.', '\\'] s with _ | _
        · rfl
        · exact absurd (hasSub_subset ht '\\' (by simp)) hb
      have t3 : hasSub ['/', '.', '.'] s = false := by
        rcases ht : hasSub ['/', '.', '.'] s with _ | _
        · rfl
        · exact absurd (hasSub_subset ht '/' (by simp)) hs
      have t4 : hasSub ['\\', '.', '.'] s = false := by
        rcases ht : hasSub ['\\', '.', '.'] s with _ | _
        · rfl
        · exact absurd (hasSub_subset ht '\\' (by simp)) hb
      have l1 : (s[0]? == some '/') = false := by
        rcases hl : (s[0]? == some '/') with _ | _
        · rfl
        · exact absurd (mem_of_getElem?_eq (by simpa using hl)) hs
      have l2 : (s[0]? == some '\\') = false := by
        rcases hl : (s[0]? == some '\\') with _ | _
        · rfl
        · exact absurd (mem_of_getElem?_eq (by simpa using hl)) hb
      simp [is_valid_filename, t1, t2, t3, t4, l1, l2, h5.1, h5.2, hs, hb]
    · -- a separator occurs: both sides reject
      have hmem : ('/' : Char) ∈ s ∨ ('\\' : Char) ∈ s := by
        rcases Bool.or_eq_true_iff.mp h5 with h | h
        · exact Or.inl (List.elem_iff.mp h)
        · exact Or.inr (List.elem_iff.mp h)
      rcases hmem with h | h <;> simp [is_valid_filename, h]

/- ### CRC32 -/

/-- Single reflected-polynomial round: shift right one bit, conditionally
XORing the reversed IEEE 802.3 polynomial. -/
def crc32Round (c : Nat) : Nat :=
  if c % 2 == 1 then (c / 2) ^^^ 0xEDB88320 else c / 2

/-- Iterate `crc32Round` (eight times per input byte). -/
def crc32Rounds : Nat → Nat → Nat
  | 0, c => c
  | n + 1, c => crc32Rounds n (crc32Round c)

/-- Fold one byte into the running CRC. -/
def crc32Update (crc b : Nat) : Nat := crc32Rounds 8 (crc ^^^ (b % 256))

/-- Modelled from the spec: the repository declares its CRC32 in
`Checksum.h` (`calculate_crc32` / `compute_checksum`) but the implementation
file is not among the sources; §4.1 of the spec fixes the contract — the
standard IEEE 802.3 reflected polynomial `0xEDB88320`, initial value
`0xFFFFFFFF`, final XOR with `0xFFFFFFFF`. -/
def crc32 (bytes : List Nat) : Nat :=
  (bytes.foldl crc32Update 0xFFFFFFFF) ^^^ 0xFFFFFFFF

/- ### Wire data model (DirShare IDL types) -/

/-- Filenames are modelled as lists of characters. -/
abbrev Filename := List Char

inductive FileOperation where
  | CREATE
  | MODIFY
  | DELETE
deriving DecidableEq, Repr

structure FileMetadata where
  filename : Filename
  size : Nat
  timestamp_sec : Nat
  timestamp_nsec : Nat
  checksum : Nat
deriving DecidableEq, Repr

structure FileEvent where
  filename : Filename
  operation : FileOperation
  timestamp_sec : Nat
  timestamp_nsec : Nat
  metadata : FileMetadata
deriving DecidableEq, Repr

structure FileContent where
  filename : Filename
  size : Nat
  checksum : Nat
  timestamp_sec : Nat
  timestamp_nsec : Nat
  data : List Nat
deriving DecidableEq, Repr

structure FileChunk where
  filename : Filename
  chunk_id : Nat
  total_chunks : Nat
  file_size : Nat
  file_checksum : Nat
  timestamp_sec : Nat
  timestamp_nsec : Nat
  chunk_checksum : Nat
  data : List Nat
deriving DecidableEq, Repr

/- ### Local filesystem model (FileUtils.cpp) -/

/-- One regular file in the shared directory: its bytes and its stat times.
The stored `mtimeNsec` models sub-second stat precision that a plain write
may produce; the FileUtils accessors below never expose it. -/
structure FileRec where
  data : List Nat
  mtimeSec : Nat
  mtimeNsec : Nat
  atimeSec : Nat
deriving DecidableEq, Repr

/-- The shared directory, keyed by (relative) filename. -/
abbrev FS := List (Filename × FileRec)

/-- Association-list insert-or-replace, modelling `std::map::operator[]`
assignment and truncating file creation. -/
def upsert {α : Type} : List (Filename × α) → Filename → α → List (Filename × α)
  | [], k, v => [(k, v)]
  | (k0, v0) :: t, k, v =>
    if k0 == k then (k0, v) :: t else (k0, v0) :: upsert t k v

/-- Association-list removal, modelling `std::map::erase` / file unlink. -/
def eraseKey {α : Type} (l : List (Filename × α)) (k : Filename) :
    List (Filename × α) :=
  l.filter (fun p => !(p.1 == k))

/-- Embeds `get_file_mtime` (FileUtils.cpp lines 58-72): stat the path, take
`st_mtime` as the seconds and hardcode `nsec = 0` ("For now, set nsec to 0").
stat fails exactly when the path is absent. -/
def get_file_mtime (fs : FS) (name : Filename) : Option (Nat × Nat) :=
  match List.lookup name fs with
  | none => none
  | some r => some (r.mtimeSec, 0)

/-- Embeds `set_file_mtime` (FileUtils.cpp lines 74-90): stat for the access
time, then `utime` with `modtime = (time_t) sec` — whole seconds only, the
`nsec` argument is never read.  `uf` is the failure oracle for the `utime`
system call. -/
def set_file_mtime (uf : Filename → Bool) (fs : FS) (name : Filename)
    (sec nsec : Nat) : Option FS :=
  match List.lookup name fs with
  | none => none
  | some r =>
    if uf name then none
    else some (upsert fs name { r with mtimeSec := sec, mtimeNsec := 0 })

/-- Embeds `file_exists` (FileUtils.cpp lines 92-100) over the model. -/
def file_exists (fs : FS) (name : Filename) : Bool :=
  (List.lookup name fs).isSome

/-- Embeds `write_file` (FileUtils.cpp lines 31-45): truncating write; `wf`
is the failure oracle for the open/write system calls; the written file's
stat times come from the clock `now` (seconds, nanoseconds).  Oracle
success is only meaningful for single-segment names, which resolve to
ordinary entries inside the directory; path-resolving names such as `".."`
denote the directory itself, where the C++ `ofstream` open necessarily
fails, so theorems instantiating `wf` with success do so at single-segment
names. -/
def write_file (wf : Filename → Bool) (fs : FS) (name : Filename)
    (bytes : List Nat) (now : Nat × Nat) : Option FS :=
  if wf name then none
  else some (upsert fs name
    { data := bytes, mtimeSec := now.1, mtimeNsec := now.2, atimeSec := now.1 })

/-- Embeds `delete_file` (FileUtils.cpp lines 111-114): `unlink`; `df` is
the failure oracle, and unlinking an absent path fails. -/
def delete_file (df : Filename → Bool) (fs : FS) (name : Filename) :
    Option FS :=
  if df name || !(file_exists fs name) then none
  else some (eraseKey fs name)

/- ### Suppression tracker (FileChangeTracker.cpp) -/

/-- Embeds `FileChangeTracker::suppress_notifications` (set insert). -/
def suppress_notifications (l : List Filename) (n : Filename) : List Filename :=
  if l.contains n then l else n :: l

/-- Embeds `FileChangeTracker::resume_notifications` (set erase, a no-op when
the name is absent). -/
def resume_notifications (l : List Filename) (n : Filename) : List Filename :=
  l.filter (fun x => !(x == n))

/-- Embeds `FileChangeTracker::is_suppressed`. -/
def is_suppressed (l : List Filename) (n : Filename) : Bool :=
  l.contains n

/- ### Reassembly accumulator (FileChunkListenerImpl.h) -/

/-- Embeds `struct ChunkedFile`; `received_chunks` models the keys mapped to
`true` in the C++ `std::map<uint32_t, bool>`. -/
structure ChunkedFile where
  data : List Nat := []
  received_chunks : List Nat := []
  total_chunks : Nat := 0
  file_size : Nat := 0
  file_checksum : Nat := 0
  timestamp_sec : Nat := 0
  timestamp_nsec : Nat := 0
deriving DecidableEq, Repr

/-- Embeds `ChunkedFile::is_complete`: every index `0..total_chunks-1`
received, and exactly that many entries. -/
def chunk_complete (f : ChunkedFile) : Bool :=
  f.received_chunks.length == f.total_chunks &&
  (List.range f.total_chunks).all (fun i => f.received_chunks.contains i)

/-- Combined mutable state of one participant's listeners: the shared
directory, the suppression tracker's set, and the reassembly buffer. -/
structure SysState where
  fs : FS
  suppressed : List Filename
  buffer : List (Filename × ChunkedFile)
deriving DecidableEq, Repr

/-- Observable tracker/filesystem calls a handler makes, in execution
order. -/
inductive Act where
  | suppress : Filename → Act
  | resume : Filename → Act
  | unlink : Filename → Act
deriving DecidableEq, Repr

/-- The timestamp comparison block repeated verbatim in
`FileEventListenerImpl.cpp` (lines 168-174 and 238-244),
`FileContentListenerImpl.cpp` (lines 102-108) and
`FileChunkListenerImpl.cpp` (lines 193-199): remote is newer iff
`remote.sec > local.sec`, or the seconds are equal and
`remote.nsec > local.nsec` (lexicographic order). -/
def mtime_strictly_newer (rsec rnsec lsec lnsec : Nat) : Bool :=
  decide (lsec < rsec) || (rsec == lsec && decide (lnsec < rnsec))

/- ### FileEvent handlers (FileEventListenerImpl.cpp) -/

/-- Shorthand for the `resume_notifications` call every content-accepting
exit path performs. -/
def resume_state (st : SysState) (name : Filename) : SysState :=
  { st with suppressed := resume_notifications st.suppressed name }

/-- Embeds `handle_create_event` (lines 90-120): an existing local file is
left alone; otherwise suppress and wait for the content. -/
def handle_create (st : SysState) (e : FileEvent) : SysState × List Act :=
  if file_exists st.fs e.filename then (st, [])
  else
    ({ st with suppressed := suppress_notifications st.suppressed e.filename },
     [Act.suppress e.filename])

/-- Embeds `handle_modify_event` (lines 122-195): a missing local file is
treated as CREATE; otherwise the metadata mtime is compared against the
local mtime and suppression is set only when the remote is strictly
newer. -/
def handle_modify (st : SysState) (e : FileEvent) : SysState × List Act :=
  if !(file_exists st.fs e.filename) then
    ({ st with suppressed := suppress_notifications st.suppressed e.filename },
     [Act.suppress e.filename])
  else
    match get_file_mtime st.fs e.filename with
    | none => (st, [])
    | some (lsec, lnsec) =>
      if mtime_strictly_newer e.metadata.timestamp_sec e.metadata.timestamp_nsec
          lsec lnsec then
        ({ st with
            suppressed := suppress_notifications st.suppressed e.filename },
         [Act.suppress e.filename])
      else (st, [])

/-- Embeds `handle_delete_event` (lines 197-283): missing file — ignore;
otherwise compare the event's own timestamp (not the metadata timestamp)
with the local mtime; when strictly newer, suppress, unlink, and resume
(resume also on unlink failure); otherwise keep the local file. -/
def handle_delete (df : Filename → Bool) (st : SysState) (e : FileEvent) :
    SysState × List Act :=
  if !(file_exists st.fs e.filename) then (st, [])
  else
    match get_file_mtime st.fs e.filename with
    | none => (st, [])
    | some (lsec, lnsec) =>
      if mtime_strictly_newer e.timestamp_sec e.timestamp_nsec lsec lnsec then
        let st1 :=
          { st with suppressed := suppress_notifications st.suppressed e.filename }
        match delete_file df st1.fs e.filename with
        | none =>
          (resume_state st1 e.filename,
           [Act.suppress e.filename, Act.unlink e.filename,
            Act.resume e.filename])
        | some fs2 =>
          (resume_state { st1 with fs := fs2 } e.filename,
           [Act.suppress e.filename, Act.unlink e.filename,
            Act.resume e.filename])
      else (st, [])

/-- Embeds the dispatch in `FileEventListenerImpl::on_data_available`
(lines 48-76) for one valid sample: the filename is validated first and an
invalid one skips the sample entirely. -/
def on_file_event (df : Filename → Bool) (st : SysState) (e : FileEvent) :
    SysState × List Act :=
  if listener_is_valid_filename e.filename then
    match e.operation with
    | FileOperation.CREATE => handle_create st e
    | FileOperation.MODIFY => handle_modify st e
    | FileOperation.DELETE => handle_delete df st e
  else (st, [])

/- ### FileContent handler (FileContentListenerImpl.cpp) -/

/-- Embeds `process_file_content` (lines 91-207).  In order: if the target
exists and its mtime is readable, reject unless the incoming mtime is
strictly newer (resume and return); validate declared size against the
actual byte count; verify CRC32 — only when the payload is non-empty; write
the bytes (`wf` failure oracle, clock `now`); restore the originator's mtime
(`uf` failure oracle, failure is only a warning); resume on every exit
path.  No filename validation is performed.
(`mtime_policy_reject` renders the shared "exists locally and the local
mtime is readable and the remote is not strictly newer" rejection used by
both the content handler and the chunk finalizer.) -/
def mtime_policy_reject (fs : FS) (name : Filename) (rsec rnsec : Nat) :
    Bool :=
  match List.lookup name fs with
  | some _ =>
    match get_file_mtime fs name with
    | some (lsec, lnsec) => !(mtime_strictly_newer rsec rnsec lsec lnsec)
    | none => false
  | none => false

/-- Embeds `process_file_content` (see the preceding comment for the shared
policy helper); the branch order mirrors the source exactly. -/
def process_file_content (wf uf : Filename → Bool) (now : Nat × Nat)
    (st : SysState) (c : FileContent) : SysState × List Act :=
  if mtime_policy_reject st.fs c.filename c.timestamp_sec c.timestamp_nsec then
    (resume_state st c.filename, [Act.resume c.filename])
  else if !(c.size == c.data.length) then
    (resume_state st c.filename, [Act.resume c.filename])
  else if decide (0 < c.data.length) && !(crc32 c.data == c.checksum) then
    (resume_state st c.filename, [Act.resume c.filename])
  else
    match write_file wf st.fs c.filename c.data now with
    | none => (resume_state st c.filename, [Act.resume c.filename])
    | some fs1 =>
      match set_file_mtime uf fs1 c.filename c.timestamp_sec
          c.timestamp_nsec with
      | none =>
        (resume_state { st with fs := fs1 } c.filename,
         [Act.resume c.filename])
      | some fs2 =>
        (resume_state { st with fs := fs2 } c.filename,
         [Act.resume c.filename])

/- ### FileChunk handler (FileChunkListenerImpl.cpp) -/

/-- Models `std::vector::resize` as used by the accumulator initialization:
keep a prefix, pad with zero bytes. -/
def resizeBytes (l : List Nat) (n : Nat) : List Nat :=
  l.take n ++ List.replicate (n - l.length) 0

/-- Models the `memcpy` into the reassembly buffer at a byte offset (the
caller has already checked the bounds). -/
def writeBytesAt (l : List Nat) (off : Nat) (xs : List Nat) : List Nat :=
  l.take off ++ xs ++ l.drop (off + xs.length)

/-- Models `received_chunks[chunk_id] = true` (map key insert, idempotent). -/
def markReceived (r : List Nat) (i : Nat) : List Nat :=
  if r.contains i then r else i :: r

/-- Embeds `finalize_file` (lines 181-264), the completion path of the chunk
listener: the same mtime policy check as the content handler, then the
whole-file CRC over `file_size` bytes of the accumulator, then write,
restore mtime (warning only), and resume on every exit path. -/
def finalize_file (wf uf : Filename → Bool) (now : Nat × Nat) (st : SysState)
    (name : Filename) (f : ChunkedFile) : SysState × List Act :=
  if mtime_policy_reject st.fs name f.timestamp_sec f.timestamp_nsec then
    (resume_state st name, [Act.resume name])
  else if !(crc32 (f.data.take f.file_size) == f.file_checksum) then
    (resume_state st name, [Act.resume name])
  else
    match write_file wf st.fs name (f.data.take f.file_size) now with
    | none => (resume_state st name, [Act.resume name])
    | some fs1 =>
      match set_file_mtime uf fs1 name f.timestamp_sec f.timestamp_nsec with
      | none =>
        (resume_state { st with fs := fs1 } name, [Act.resume name])
      | some fs2 =>
        (resume_state { st with fs := fs2 } name, [Act.resume name])

/-- The chunk size constant (1 MiB), as in DirShare.cpp and
FileChunkListenerImpl.cpp. -/
def CHUNK_SIZE : Nat := 1024 * 1024

/-- The whole-file threshold constant (10 MiB) from DirShare.cpp. -/
def CHUNK_THRESHOLD : Nat := 10 * 1024 * 1024

/-- Embeds `process_chunk` (lines 92-179).  In order: verify the per-chunk
CRC — only when the chunk payload is non-empty; look up or default-create
the accumulator (`operator[]`) and initialize it from this chunk when its
`total_chunks` is zero; reject the chunk on a `total_chunks` / `file_size` /
`file_checksum` disagreement (the accumulator, including a freshly created
one, stays in the buffer); bounds-check and copy the bytes at
`chunk_id * CHUNK_SIZE`; mark the chunk received; when complete, finalize
and erase the accumulator.  No filename validation is performed. -/
def process_chunk (wf uf : Filename → Bool) (now : Nat × Nat) (st : SysState)
    (ch : FileChunk) : SysState :=
  if decide (0 < ch.data.length) && !(crc32 ch.data == ch.chunk_checksum) then
    st
  else
    let f0 := (List.lookup ch.filename st.buffer).getD {}
    let f1 :=
      if f0.total_chunks == 0 then
        { f0 with
            total_chunks := ch.total_chunks, file_size := ch.file_size,
            file_checksum := ch.file_checksum,
            timestamp_sec := ch.timestamp_sec,
            timestamp_nsec := ch.timestamp_nsec,
            data := resizeBytes f0.data ch.file_size }
      else f0
    if !(ch.total_chunks == f1.total_chunks) || !(ch.file_size == f1.file_size) ||
       !(ch.file_checksum == f1.file_checksum) then
      { st with buffer := upsert st.buffer ch.filename f1 }
    else if decide (f1.file_size < ch.chunk_id * CHUNK_SIZE + ch.data.length) then
      { st with buffer := upsert st.buffer ch.filename f1 }
    else
      let f2 :=
        { f1 with
            data := writeBytesAt f1.data (ch.chunk_id * CHUNK_SIZE) ch.data,
            received_chunks := markReceived f1.received_chunks ch.chunk_id }
      if chunk_complete f2 then
        let st1 := (finalize_file wf uf now
          { st with buffer := upsert st.buffer ch.filename f2 } ch.filename f2).1
        { st1 with buffer := eraseKey st1.buffer ch.filename }
      else
        { st with buffer := upsert st.buffer ch.filename f2 }

/- ### Association-list lemmas -/

theorem lookup_upsert_self {α : Type} (l : List (Filename × α)) (k : Filename)
    (v : α) : List.lookup k (upsert l k v) = some v := by
  induction l with
  | nil => simp [upsert, List.lookup]
  | cons p t ih =>
    obtain ⟨k0, v0⟩ := p
    by_cases h : k0 = k
    · subst h
      simp [upsert, List.lookup]
    · have hb : (k0 == k) = false := beq_eq_false_iff_ne.mpr h
      have hb2 : (k == k0) = false := beq_eq_false_iff_ne.mpr (Ne.symm h)
      simp [upsert, hb, List.lookup, hb2, ih]

theorem upsert_lookup_self {α : Type} {l : List (Filename × α)} {k : Filename}
    {v : α} (h : List.lookup k l = some v) : upsert l k v = l := by
  induction l with
  | nil => simp [List.lookup] at h
  | cons p t ih =>
    obtain ⟨k0, v0⟩ := p
    by_cases hk : k = k0
    · subst hk
      simp [List.lookup] at h
      simp [upsert, h]
    · have hb : (k == k0) = false := beq_eq_false_iff_ne.mpr hk
      have hb2 : (k0 == k) = false := beq_eq_false_iff_ne.mpr (Ne.symm hk)
      simp [List.lookup, hb] at h
      simp [upsert, hb2, ih h]

theorem not_suppressed_after_resume (l : List Filename) (n : Filename) :
    is_suppressed (resume_notifications l n) n = false := by
  rw [Bool.eq_false_iff]
  intro h
  have hm := List.elem_iff.mp h
  have := (List.mem_filter.mp hm).2
  simp at this

/- ### C4: inbound filename screening -/

/-- C4 counterexample: the single-segment filename `"a..b"` fails the
validity rules (both under the spec's stated rule and under the listener
validator, since it contains `".."`), and it is an ordinary creatable name
inside the shared directory — yet the FileContent handler performs no
filename check: a zero-byte payload named `"a..b"` is written to the
shared tree rather than ignored.  (The FileChunk handler likewise has no
check; only the FileEvent handler validates.) -/
theorem content_handler_no_screening_counterexample :
    spec_filename_rule ['a', '.', '.', 'b'] = false ∧
    listener_is_valid_filename ['a', '.', '.', 'b'] = false ∧
    (process_file_content (fun _ => false) (fun _ => false) (2000, 0)
        ⟨[], [], []⟩ ⟨['a', '.', '.', 'b'], 0, 3735928559, 1000, 0, []⟩).1.fs =
      [(['a', '.', '.', 'b'], ⟨[], 1000, 0, 2000⟩)] := by
  decide

/-- C4 (amended): only the FileEvent handler screens filenames — an inbound
FileEvent whose filename fails the listener's validity rules is ignored
entirely (no state change, no tracker call); the FileContent and FileChunk
handlers process payloads without any filename validation (see the
counterexample). -/
theorem event_dispatch_screens_filenames (df : Filename → Bool)
    (st : SysState) (e : FileEvent)
    (h : listener_is_valid_filename e.filename = false) :
    on_file_event df st e = (st, []) := by
  simp [on_file_event, h]

/-- Witness for C4's amended theorem at a concrete invalid filename. -/
theorem event_dispatch_screens_filenames_witness :
    on_file_event (fun _ => false) ⟨[], [], []⟩
      ⟨['a', '.', '.', 'b'], FileOperation.DELETE, 9999, 0, ⟨[], 0, 0, 0, 0⟩⟩ =
      (⟨[], [], []⟩, []) :=
  event_dispatch_screens_filenames (fun _ => false) ⟨[], [], []⟩
    ⟨['a', '.', '.', 'b'], FileOperation.DELETE, 9999, 0, ⟨[], 0, 0, 0, 0⟩⟩
    (by decide)

/- ### C7: DELETE conflict resolution -/

/-- C7: the DELETE handler does nothing when the file is missing; when the
file exists it unlinks exactly when the event's own timestamp is strictly
greater than the local mtime under lexicographic (sec, nsec) order, emitting
suppress, unlink, resume in that order (resume also on unlink failure, with
the file then retained); otherwise the local file is retained unchanged. -/
theorem delete_conflict_resolution (df : Filename → Bool) (st : SysState)
    (e : FileEvent) :
    (List.lookup e.filename st.fs = none → handle_delete df st e = (st, [])) ∧
    (∀ r, List.lookup e.filename st.fs = some r →
      (mtime_strictly_newer e.timestamp_sec e.timestamp_nsec r.mtimeSec 0 = false →
        handle_delete df st e = (st, [])) ∧
      (mtime_strictly_newer e.timestamp_sec e.timestamp_nsec r.mtimeSec 0 = true →
        (handle_delete df st e).2 =
          [Act.suppress e.filename, Act.unlink e.filename,
           Act.resume e.filename] ∧
        (df e.filename = false →
          (handle_delete df st e).1.fs = eraseKey st.fs e.filename) ∧
        (df e.filename = true → (handle_delete df st e).1.fs = st.fs))) := by
  constructor
  · intro h
    simp [handle_delete, file_exists, h]
  · intro r hr
    have hex : file_exists st.fs e.filename = true := by
      simp [file_exists, hr]
    have hmt : get_file_mtime st.fs e.filename = some (r.mtimeSec, 0) := by
      simp [get_file_mtime, hr]
    constructor
    · intro hnew
      simp [handle_delete, hex, hmt, hnew]
    · intro hnew
      by_cases hdf : df e.filename
      · have hdel : delete_file df st.fs e.filename = none := by
          simp [delete_file, hdf]
        refine ⟨?_, ?_, ?_⟩ <;>
          simp [handle_delete, hex, hmt, hnew, hdel, resume_state, hdf]
      · have hdf2 : df e.filename = false := by simpa using hdf
        have hdel : delete_file df st.fs e.filename =
            some (eraseKey st.fs e.filename) := by
          simp [delete_file, hdf2, file_exists, hr]
        refine ⟨?_, ?_, ?_⟩ <;>
          simp [handle_delete, hex, hmt, hnew, hdel, resume_state, hdf2]

/-- Witness for C7 at the spec's deletion-conflict scenario: local
`zeta.txt` with mtime 3500 survives a DELETE with event-mtime 3000 and is
unlinked by a DELETE with event-mtime 4000. -/
theorem delete_conflict_resolution_witness :
    (handle_delete (fun _ => false)
        ⟨[(['z'], ⟨[1], 3500, 0, 0⟩)], [], []⟩
        ⟨['z'], FileOperation.DELETE, 3000, 0, ⟨[], 0, 0, 0, 0⟩⟩ =
      (⟨[(['z'], ⟨[1], 3500, 0, 0⟩)], [], []⟩, [])) ∧
    ((handle_delete (fun _ => false)
        ⟨[(['z'], ⟨[1], 3500, 0, 0⟩)], [], []⟩
        ⟨['z'], FileOperation.DELETE, 4000, 0, ⟨[], 0, 0, 0, 0⟩⟩).2 =
      [Act.suppress ['z'], Act.unlink ['z'], Act.resume ['z']]) ∧
    ((handle_delete (fun _ => false)
        ⟨[(['z'], ⟨[1], 3500, 0, 0⟩)], [], []⟩
        ⟨['z'], FileOperation.DELETE, 4000, 0, ⟨[], 0, 0, 0, 0⟩⟩).1.fs = []) := by
  refine ⟨?_, ?_, ?_⟩
  · exact (((delete_conflict_resolution (fun _ => false)
      ⟨[(['z'], ⟨[1], 3500, 0, 0⟩)], [], []⟩
      ⟨['z'], FileOperation.DELETE, 3000, 0, ⟨[], 0, 0, 0, 0⟩⟩).2
      ⟨[1], 3500, 0, 0⟩ (by decide)).1 (by decide))
  · exact (((delete_conflict_resolution (fun _ => false)
      ⟨[(['z'], ⟨[1], 3500, 0, 0⟩)], [], []⟩
      ⟨['z'], FileOperation.DELETE, 4000, 0, ⟨[], 0, 0, 0, 0⟩⟩).2
      ⟨[1], 3500, 0, 0⟩ (by decide)).2 (by decide)).1
  · have h := (((delete_conflict_resolution (fun _ => false)
      ⟨[(['z'], ⟨[1], 3500, 0, 0⟩)], [], []⟩
      ⟨['z'], FileOperation.DELETE, 4000, 0, ⟨[], 0, 0, 0, 0⟩⟩).2
      ⟨[1], 3500, 0, 0⟩ (by decide)).2 (by decide)).2.1 (by decide)
    rw [h]
    decide

/- ### C9: mtime is second-granular at the FileIO boundary -/

/-- C9: `get_file_mtime` always reports `nsec = 0`, and a successful
`set_file_mtime` with any nanosecond argument stores whole seconds only, so
a following `get_file_mtime` yields exactly `(sec, 0)`. -/
theorem mtime_second_granularity :
    (∀ (fs : FS) (name : Filename) (p : Nat × Nat),
      get_file_mtime fs name = some p → p.2 = 0) ∧
    (∀ (uf : Filename → Bool) (fs : FS) (name : Filename) (s n : Nat)
      (fs2 : FS), set_file_mtime uf fs name s n = some fs2 →
      get_file_mtime fs2 name = some (s, 0)) := by
  constructor
  · intro fs name p h
    unfold get_file_mtime at h
    cases hl : List.lookup name fs with
    | none => rw [hl] at h; cases h
    | some r =>
      rw [hl] at h
      cases h
      rfl
  · intro uf fs name s n fs2 h
    unfold set_file_mtime at h
    cases hl : List.lookup name fs with
    | none => rw [hl] at h; cases h
    | some r =>
      rw [hl] at h
      by_cases huf : uf name
      · simp [huf] at h
      · simp [huf] at h
        subst h
        simp [get_file_mtime, lookup_upsert_self]

/-- Witness for C9: setting mtime (42 s, 123456789 ns) on an existing file
stores 42 whole seconds, and reading it back yields (42, 0). -/
theorem mtime_second_granularity_witness :
    set_file_mtime (fun _ => false) [(['a'], ⟨[1], 10, 5, 7⟩)] ['a']
        42 123456789 = some [(['a'], ⟨[1], 42, 0, 7⟩)] ∧
    get_file_mtime [(['a'], ⟨[1], 42, 0, 7⟩)] ['a'] = some (42, 0) :=
  ⟨by decide,
   mtime_second_granularity.2 (fun _ => false) [(['a'], ⟨[1], 10, 5, 7⟩)]
     ['a'] 42 123456789 [(['a'], ⟨[1], 42, 0, 7⟩)] (by decide)⟩

/- ### C5: chunk metadata consistency -/

/-- C5 counterexample: the consistency check in `process_chunk` compares
`total_chunks`, `file_size` and `file_checksum` but not the mtime.  A second
chunk that differs from the existing accumulator only in `timestamp_sec`
(2000 vs 1000) is not rejected: its bytes are placed into the accumulator
(the buffered data becomes `[7, 0]`). -/
theorem chunk_mtime_mismatch_accepted :
    process_chunk (fun _ => false) (fun _ => false) (0, 0)
      ⟨[], [], [(['f'], ⟨[5, 0], [0], 2, 2, 99, 1000, 0⟩)]⟩
      ⟨['f'], 0, 2, 2, 99, 2000, 0, crc32 [7], [7]⟩ =
      ⟨[], [], [(['f'], ⟨[7, 0], [0], 2, 2, 99, 1000, 0⟩)]⟩ := by
  decide

/-- C5 (amended): for every chunk arriving for a filename whose accumulator
already exists and has been initialized (nonzero `total_chunks`), a
disagreement in any of `total_chunks`, `file_size`, or `file_checksum` is a
hard error for that chunk: no bytes are placed and the state — including the
accumulator — is unchanged.  The mtime is not part of the consistency check
(see the counterexample). -/
theorem chunk_metadata_mismatch_rejected (wf uf : Filename → Bool)
    (now : Nat × Nat) (st : SysState) (ch : FileChunk) (f : ChunkedFile)
    (hf : List.lookup ch.filename st.buffer = some f)
    (hnz : f.total_chunks ≠ 0)
    (hmm : ch.total_chunks ≠ f.total_chunks ∨ ch.file_size ≠ f.file_size ∨
           ch.file_checksum ≠ f.file_checksum) :
    process_chunk wf uf now st ch = st := by
  have hnzb : (f.total_chunks == 0) = false :=
    beq_eq_false_iff_ne.mpr hnz
  have hcond : (!(ch.total_chunks == f.total_chunks) ||
      !(ch.file_size == f.file_size) ||
      !(ch.file_checksum == f.file_checksum)) = true := by
    rcases hmm with h | h | h <;> simp [beq_eq_false_iff_ne.mpr h]
  have hbuf : upsert st.buffer ch.filename f = st.buffer :=
    upsert_lookup_self hf
  by_cases hcrc : (decide (0 < ch.data.length) &&
      !(crc32 ch.data == ch.chunk_checksum)) = true
  · simp [process_chunk, hcrc]
  · have hcrc2 : (decide (0 < ch.data.length) &&
        !(crc32 ch.data == ch.chunk_checksum)) = false := by
      simpa using hcrc
    simp [process_chunk, hcrc2, hf, hnzb, hcond, hbuf]

/-- Witness for C5's amended theorem: a chunk whose `file_checksum` (98)
disagrees with the accumulator's (99) leaves the state unchanged. -/
theorem chunk_metadata_mismatch_rejected_witness :
    process_chunk (fun _ => false) (fun _ => false) (0, 0)
      ⟨[], [], [(['f'], ⟨[5, 0], [0], 2, 2, 99, 1000, 0⟩)]⟩
      ⟨['f'], 1, 2, 2, 98, 1000, 0, crc32 [7], [7]⟩ =
      ⟨[], [], [(['f'], ⟨[5, 0], [0], 2, 2, 99, 1000, 0⟩)]⟩ :=
  chunk_metadata_mismatch_rejected (fun _ => false) (fun _ => false) (0, 0)
    ⟨[], [], [(['f'], ⟨[5, 0], [0], 2, 2, 99, 1000, 0⟩)]⟩
    ⟨['f'], 1, 2, 2, 98, 1000, 0, crc32 [7], [7]⟩
    ⟨[5, 0], [0], 2, 2, 99, 1000, 0⟩
    (by decide) (by decide) (Or.inr (Or.inr (by decide)))

/- ### C6: suppression cannot leak -/

theorem process_file_content_shape (wf uf : Filename → Bool)
    (now : Nat × Nat) (st : SysState) (c : FileContent) :
    ∃ st2, process_file_content wf uf now st c =
      (resume_state st2 c.filename, [Act.resume c.filename]) := by
  unfold process_file_content
  repeat' split
  all_goals exact ⟨_, rfl⟩

theorem finalize_file_shape (wf uf : Filename → Bool) (now : Nat × Nat)
    (st : SysState) (name : Filename) (f : ChunkedFile) :
    ∃ st2, finalize_file wf uf now st name f =
      (resume_state st2 name, [Act.resume name]) := by
  unfold finalize_file
  repeat' split
  all_goals exact ⟨_, rfl⟩

/-- C6: every exit path of the FileContent handler — policy rejection, size
mismatch, checksum mismatch, write failure, mtime-set warning, acceptance —
calls `resume(filename)`, and the chunk finalization path does the same, so
after either handler returns the filename is not in the suppressed set. -/
theorem suppression_cannot_leak (wf uf : Filename → Bool) (now : Nat × Nat)
    (st : SysState) (c : FileContent) (name : Filename) (f : ChunkedFile) :
    (Act.resume c.filename ∈ (process_file_content wf uf now st c).2 ∧
     is_suppressed (process_file_content wf uf now st c).1.suppressed
       c.filename = false) ∧
    (Act.resume name ∈ (finalize_file wf uf now st name f).2 ∧
     is_suppressed (finalize_file wf uf now st name f).1.suppressed
       name = false) := by
  obtain ⟨s1, h1⟩ := process_file_content_shape wf uf now st c
  obtain ⟨s2, h2⟩ := finalize_file_shape wf uf now st name f
  rw [h1, h2]
  exact ⟨⟨by simp, by simp [resume_state, not_suppressed_after_resume]⟩,
         ⟨by simp, by simp [resume_state, not_suppressed_after_resume]⟩⟩

/- ### C10: zero-length payloads bypass checksum verification -/

/-- C10: for an empty FileContent data sequence (and an empty FileChunk
payload) the CRC32 verification is skipped entirely — the handler's result
does not depend on the declared checksum at all — and an empty FileContent
with a consistent declared size 0 for an absent file is accepted and
written, whatever its checksum. -/
theorem zero_length_payload_skips_crc :
    (∀ (wf uf : Filename → Bool) (now : Nat × Nat) (st : SysState)
      (c : FileContent) (k k2 : Nat), c.data = [] →
      process_file_content wf uf now st { c with checksum := k } =
      process_file_content wf uf now st { c with checksum := k2 }) ∧
    (∀ (wf uf : Filename → Bool) (now : Nat × Nat) (st : SysState)
      (ch : FileChunk) (k k2 : Nat), ch.data = [] →
      process_chunk wf uf now st { ch with chunk_checksum := k } =
      process_chunk wf uf now st { ch with chunk_checksum := k2 }) ∧
    (∀ (wf uf : Filename → Bool) (now : Nat × Nat) (st : SysState)
      (c : FileContent), c.data = [] → c.size = 0 →
      wf c.filename = false → List.lookup c.filename st.fs = none →
      file_exists (process_file_content wf uf now st c).1.fs
        c.filename = true) := by
  refine ⟨?_, ?_, ?_⟩
  · intro wf uf now st c k k2 h
    simp [process_file_content, h]
  · intro wf uf now st ch k k2 h
    simp [process_chunk, h]
  · intro wf uf now st c h hsz hwf hlk
    have hpol : mtime_policy_reject st.fs c.filename c.timestamp_sec
        c.timestamp_nsec = false := by
      simp [mtime_policy_reject, hlk]
    have hsize : (!(c.size == c.data.length)) = false := by
      simp [h, hsz]
    have hguard : (decide (0 < c.data.length) &&
        !(crc32 c.data == c.checksum)) = false := by
      simp [h]
    have hwr : write_file wf st.fs c.filename c.data now =
        some (upsert st.fs c.filename
          { data := c.data, mtimeSec := now.1, mtimeNsec := now.2,
            atimeSec := now.1 }) := by
      simp [write_file, hwf]
    rw [show process_file_content wf uf now st c =
        (if mtime_policy_reject st.fs c.filename c.timestamp_sec
            c.timestamp_nsec then
          (resume_state st c.filename, [Act.resume c.filename])
        else if !(c.size == c.data.length) then
          (resume_state st c.filename, [Act.resume c.filename])
        else if decide (0 < c.data.length) && !(crc32 c.data == c.checksum)
            then (resume_state st c.filename, [Act.resume c.filename])
        else
          match write_file wf st.fs c.filename c.data now with
          | none => (resume_state st c.filename, [Act.resume c.filename])
          | some fs1 =>
            match set_file_mtime uf fs1 c.filename c.timestamp_sec
                c.timestamp_nsec with
            | none =>
              (resume_state { st with fs := fs1 } c.filename,
               [Act.resume c.filename])
            | some fs2 =>
              (resume_state { st with fs := fs2 } c.filename,
               [Act.resume c.filename])) from rfl]
    rw [hpol, hsize, hguard, if_neg (by simp), if_neg (by simp),
      if_neg (by simp), hwr]
    dsimp only
    have hl1 : List.lookup c.filename (upsert st.fs c.filename
        { data := c.data, mtimeSec := now.1, mtimeNsec := now.2,
          atimeSec := now.1 }) =
        some { data := c.data, mtimeSec := now.1, mtimeNsec := now.2,
               atimeSec := now.1 } := lookup_upsert_self _ _ _
    by_cases huf : uf c.filename
    · rw [show set_file_mtime uf (upsert st.fs c.filename
          { data := c.data, mtimeSec := now.1, mtimeNsec := now.2,
            atimeSec := now.1 }) c.filename c.timestamp_sec
          c.timestamp_nsec = none by
        unfold set_file_mtime
        rw [hl1]
        dsimp only
        rw [if_pos huf]]
      unfold file_exists resume_state
      rw [hl1]
      rfl
    · rw [show set_file_mtime uf (upsert st.fs c.filename
          { data := c.data, mtimeSec := now.1, mtimeNsec := now.2,
            atimeSec := now.1 }) c.filename c.timestamp_sec
          c.timestamp_nsec =
          some (upsert (upsert st.fs c.filename
            { data := c.data, mtimeSec := now.1, mtimeNsec := now.2,
              atimeSec := now.1 }) c.filename
            { data := c.data, mtimeSec := c.timestamp_sec, mtimeNsec := 0,
              atimeSec := now.1 }) by
        unfold set_file_mtime
        rw [hl1]
        dsimp only
        rw [if_neg (by simp [huf])]]
      unfold file_exists resume_state
      rw [lookup_upsert_self]
      rfl

/-- Witness for C10 at concrete inputs: an empty FileContent named `e`
declaring checksum 3735928559 (which is not the CRC32 of the empty string)
behaves exactly like one declaring checksum 0, and is accepted — the file
appears in the shared tree; similarly an empty chunk is processed
identically under two different declared chunk checksums. -/
theorem zero_length_payload_skips_crc_witness :
    (process_file_content (fun _ => false) (fun _ => false) (7, 0)
        ⟨[], [], []⟩ ⟨['e'], 0, 3735928559, 5, 0, []⟩ =
      process_file_content (fun _ => false) (fun _ => false) (7, 0)
        ⟨[], [], []⟩ ⟨['e'], 0, 0, 5, 0, []⟩) ∧
    (process_chunk (fun _ => false) (fun _ => false) (7, 0)
        ⟨[], [], []⟩ ⟨['e'], 0, 3, 9, 1, 5, 0, 3735928559, []⟩ =
      process_chunk (fun _ => false) (fun _ => false) (7, 0)
        ⟨[], [], []⟩ ⟨['e'], 0, 3, 9, 1, 5, 0, 0, []⟩) ∧
    file_exists (process_file_content (fun _ => false) (fun _ => false) (7, 0)
        ⟨[], [], []⟩ ⟨['e'], 0, 3735928559, 5, 0, []⟩).1.fs ['e'] = true := by
  refine ⟨?_, ?_, ?_⟩
  · exact zero_length_payload_skips_crc.1 (fun _ => false) (fun _ => false)
      (7, 0) ⟨[], [], []⟩ ⟨['e'], 0, 0, 5, 0, []⟩ 3735928559 0 rfl
  · exact zero_length_payload_skips_crc.2.1 (fun _ => false) (fun _ => false)
      (7, 0) ⟨[], [], []⟩ ⟨['e'], 0, 3, 9, 1, 5, 0, 0, []⟩ 3735928559 0 rfl
  · exact zero_length_payload_skips_crc.2.2 (fun _ => false) (fun _ => false)
      (7, 0) ⟨[], [], []⟩ ⟨['e'], 0, 3735928559, 5, 0, []⟩ rfl rfl rfl rfl

/- ### Directory monitor (FileMonitor.cpp) -/

/-- Embeds `struct FileState` (FileMonitor.h): size, mtime seconds and
nanoseconds, CRC32 checksum. -/
structure FileState where
  size : Nat
  timestamp_sec : Nat
  timestamp_nsec : Nat
  checksum : Nat
deriving DecidableEq, Repr

/-- Embeds `FileMonitor::scan_for_changes` (FileMonitor.cpp lines 30-117) as
a pure function.  `previous` is the previous-state map; `current` is the
freshly computed state map (the listing and the per-file stat/read, with
erroring files already silently dropped, lines 41-70); `tracker` is the
suppression set.  The created/modified pass (lines 72-101) skips suppressed
names; the deleted pass (lines 103-111) reports every previous name absent
from `current`, with no suppression check; line 114 then replaces the
previous state wholesale with `current`.  Returns
(created, modified, deleted, new previous state). -/
def scan_for_changes (tracker : List Filename)
    (previous current : List (Filename × FileState)) :
    List Filename × List Filename × List Filename ×
      List (Filename × FileState) :=
  let created := current.filterMap (fun p =>
    if is_suppressed tracker p.1 then none
    else
      match List.lookup p.1 previous with
      | none => some p.1
      | some _ => none)
  let modified := current.filterMap (fun p =>
    if is_suppressed tracker p.1 then none
    else
      match List.lookup p.1 previous with
      | none => none
      | some prev =>
        if !(p.2.size == prev.size) || !(p.2.timestamp_sec == prev.timestamp_sec) ||
           !(p.2.timestamp_nsec == prev.timestamp_nsec) ||
           !(p.2.checksum == prev.checksum) then some p.1
        else none)
  let deleted := previous.filterMap (fun p =>
    match List.lookup p.1 current with
    | none => some p.1
    | some _ => none)
  (created, modified, deleted, current)

/-- C2 evaluation at the failing input (the scenario of the repository's own
test `test_delete_notification_suppression` in FileEventDeleteBoostTest.cpp):
the file `"s"` is suppressed and has been removed from the directory, so
`current` is empty.  The scan nevertheless reports `"s"` as deleted, and the
new previous-state map is empty — the suppressed name's row is neither
withheld from the deleted list nor retained. -/
theorem scan_suppressed_deletion_eval :
    scan_for_changes [['s']] [(['s'], ⟨16, 1000, 0, 77⟩)] [] =
      ([], [], [['s']], []) := by
  decide

/- ### Transfer encoder and steady-state publication (DirShare.cpp) -/

/-- Embeds the chunk-construction loop body (DirShare.cpp lines 524-545, and
verbatim again at 676-697 and 813-834): the chunk at index `i` carries the
bytes at offset `i * CHUNK_SIZE`, of size `CHUNK_SIZE` except when the
offset plus `CHUNK_SIZE` overruns the file, in which case it carries the
remainder; every chunk carries the file metadata and its own CRC32. -/
def mkChunk (md : FileMetadata) (bytes : List Nat) (total : Nat) (i : Nat) :
    FileChunk :=
  let off := i * CHUNK_SIZE
  let this_chunk_size :=
    if md.size < off + CHUNK_SIZE then md.size - off else CHUNK_SIZE
  { filename := md.filename, chunk_id := i, total_chunks := total,
    file_size := md.size, file_checksum := md.checksum,
    timestamp_sec := md.timestamp_sec, timestamp_nsec := md.timestamp_nsec,
    chunk_checksum := crc32 ((bytes.drop off).take this_chunk_size),
    data := (bytes.drop off).take this_chunk_size }

/-- Embeds the framing decision repeated at DirShare.cpp lines 469-558 (and
621-715, 758-852): a file strictly below `CHUNK_THRESHOLD` is sent as one
FileContent carrying all the bytes; otherwise it is split into
`(size + CHUNK_SIZE - 1) / CHUNK_SIZE` chunks with ids `0, 1, ...`. -/
def encode_file (md : FileMetadata) (bytes : List Nat) :
    FileContent ⊕ List FileChunk :=
  if md.size < CHUNK_THRESHOLD then
    Sum.inl { filename := md.filename, size := md.size, checksum := md.checksum,
              timestamp_sec := md.timestamp_sec,
              timestamp_nsec := md.timestamp_nsec, data := bytes }
  else
    let total := (md.size + CHUNK_SIZE - 1) / CHUNK_SIZE
    Sum.inr ((List.range total).map (mkChunk md bytes total))

/-- One sample on one of the three publication topics. -/
inductive Message where
  | event : FileEvent → Message
  | content : FileContent → Message
  | chunk : FileChunk → Message
deriving DecidableEq, Repr

/-- Embeds one iteration of the created/modified publication loops
(DirShare.cpp lines 582-716 and 719-853): fetch the metadata (on failure,
`continue` — nothing published for the name), publish the FileEvent, read
the file (on failure, `continue` — the event stays published but no
content follows), and publish the encoder's output.  `metaOf` and `readOf`
model `FileMonitor::get_file_metadata` and `read_file`. -/
def publish_for_name (metaOf : Filename → Option FileMetadata)
    (readOf : Filename → Option (List Nat)) (now : Nat × Nat)
    (op : FileOperation) (name : Filename) : List Message :=
  match metaOf name with
  | none => []
  | some md =>
    Message.event { filename := md.filename, operation := op,
                    timestamp_sec := now.1, timestamp_nsec := now.2,
                    metadata := md } ::
    match readOf name with
    | none => []
    | some bytes =>
      match encode_file md bytes with
      | Sum.inl c => [Message.content c]
      | Sum.inr cs => cs.map Message.chunk

/-- Embeds one pass of the steady-state monitoring loop body (DirShare.cpp
lines 580-861) over a successful scan result: each created name publishes a
CREATE FileEvent plus content, each modified name a MODIFY FileEvent plus
content, and the deleted loop (lines 855-860) only logs
"File DELETE detected: ... (Phase 6 - not yet implemented)" — it publishes
nothing. -/
def steady_state_cycle (metaOf : Filename → Option FileMetadata)
    (readOf : Filename → Option (List Nat)) (now : Nat × Nat)
    (created modified deleted : List Filename) : List Message :=
  created.flatMap (publish_for_name metaOf readOf now FileOperation.CREATE) ++
  modified.flatMap (publish_for_name metaOf readOf now FileOperation.MODIFY) ++
  deleted.flatMap (fun _ => ([] : List Message))

/-- C1 evaluation at the failing input: a scan reporting `"z"` as deleted
(with metadata and bytes for `"z"` still available to the publisher)
produces no publication at all — in particular no FileEvent with operation
DELETE, where the claim requires
`FileEvent(DELETE, event-mtime = now, zero metadata)`. -/
theorem deleted_name_publishes_nothing :
    steady_state_cycle (fun _ => some ⟨['z'], 4, 3000, 0, 5⟩)
      (fun _ => some [1, 2, 3, 4]) (5000, 0) [] [] [['z']] = [] := by
  decide

/-- Helper predicate: `m` is not a DELETE FileEvent. -/
def not_delete_event (m : Message) : Bool :=
  match m with
  | Message.event e => !(e.operation == FileOperation.DELETE)
  | _ => true

/-- The steady-state loop never publishes a DELETE FileEvent, for any scan
result and any metadata/read environment (supporting evidence for the C1
divergence, beyond the single failing input). -/
theorem steady_state_cycle_never_publishes_delete
    (metaOf : Filename → Option FileMetadata)
    (readOf : Filename → Option (List Nat)) (now : Nat × Nat)
    (created modified deleted : List Filename) :
    (steady_state_cycle metaOf readOf now created modified deleted).all
      not_delete_event = true := by
  have hone : ∀ (op : FileOperation), (op == FileOperation.DELETE) = false →
      ∀ name, (publish_for_name metaOf readOf now op name).all
        not_delete_event = true := by
    intro op hop name
    unfold publish_for_name
    cases metaOf name with
    | none => rfl
    | some md =>
      cases readOf name with
      | none => simp [not_delete_event, hop]
      | some bytes =>
        dsimp only
        cases henc : encode_file md bytes with
        | inl c => simp [henc, not_delete_event, hop]
        | inr cs =>
          dsimp only
          rw [List.all_cons]
          have h2 : (cs.map Message.chunk).all not_delete_event = true :=
            List.all_eq_true.mpr (by
              intro x hx
              obtain ⟨y, _, rfl⟩ := List.mem_map.mp hx
              rfl)
          rw [h2]
          simp [not_delete_event, hop]
  have hall : ∀ (ns : List Filename) (f : Filename → List Message),
      (∀ a, (f a).all not_delete_event = true) →
      (ns.flatMap f).all not_delete_event = true := by
    intro ns f h
    induction ns with
    | nil => rfl
    | cons x t ih =>
      rw [List.flatMap_cons, List.all_append, h x, ih]
      rfl
  unfold steady_state_cycle
  rw [List.all_append, List.all_append,
    hall created _ (hone FileOperation.CREATE rfl),
    hall modified _ (hone FileOperation.MODIFY rfl),
    hall deleted (fun _ => ([] : List Message)) (fun _ => rfl)]
  rfl

/- ### C8: encoder framing and chunk arithmetic -/

theorem encode_chunks_spec (md : FileMetadata) (bytes : List Nat)
    (hlen : bytes.length = md.size) (h : CHUNK_THRESHOLD ≤ md.size) :
    ∃ cs, encode_file md bytes = Sum.inr cs ∧
      cs.length = (md.size + CHUNK_SIZE - 1) / CHUNK_SIZE ∧
      ∀ i, ∀ hi : i < cs.length,
        (cs.get ⟨i, hi⟩).chunk_id = i ∧
        (cs.get ⟨i, hi⟩).total_chunks = cs.length ∧
        (cs.get ⟨i, hi⟩).chunk_checksum = crc32 (cs.get ⟨i, hi⟩).data ∧
        (cs.get ⟨i, hi⟩).data.length =
          (if i + 1 < cs.length then CHUNK_SIZE
           else md.size - (cs.length - 1) * CHUNK_SIZE) := by
  have hCS : CHUNK_SIZE = 1048576 := rfl
  have hnotlt : ¬ md.size < CHUNK_THRESHOLD := not_lt.mpr h
  refine ⟨(List.range ((md.size + CHUNK_SIZE - 1) / CHUNK_SIZE)).map
    (mkChunk md bytes ((md.size + CHUNK_SIZE - 1) / CHUNK_SIZE)), ?_, ?_, ?_⟩
  · simp [encode_file, hnotlt]
  · simp
  · intro i hi
    simp only [List.length_map, List.length_range] at hi ⊢
    have hget : ((List.range ((md.size + CHUNK_SIZE - 1) / CHUNK_SIZE)).map
        (mkChunk md bytes ((md.size + CHUNK_SIZE - 1) / CHUNK_SIZE))).get
        ⟨i, by simpa using hi⟩ =
        mkChunk md bytes ((md.size + CHUNK_SIZE - 1) / CHUNK_SIZE) i := by
      simp [List.get_eq_getElem]
    rw [hget]
    have hsz1 : 10485760 ≤ md.size := h
    have hdm := Nat.div_add_mod (md.size + CHUNK_SIZE - 1) CHUNK_SIZE
    have hmlt := Nat.mod_lt (md.size + CHUNK_SIZE - 1)
      (show 0 < CHUNK_SIZE by decide)
    rw [hCS] at hdm hmlt hi ⊢
    refine ⟨rfl, rfl, rfl, ?_⟩
    simp only [mkChunk, hCS, List.length_take, List.length_drop, hlen]
    by_cases hcase : i + 1 < (md.size + 1048576 - 1) / 1048576
    · rw [if_neg (by omega), if_pos hcase]
      omega
    · rw [if_neg hcase]
      by_cases hlast : md.size < i * 1048576 + 1048576
      · rw [if_pos hlast]
        omega
      · rw [if_neg hlast]
        omega

/-- C8: for a file whose byte list matches its metadata size, the encoder
produces one FileContent carrying all the bytes when the size is below the
10 MiB threshold; otherwise it produces `⌈size / 1 MiB⌉` FileChunks with
ids `0..total-1`, each with its own CRC32 over its own bytes, every chunk
except the last of exactly 1,048,576 bytes and the last of
`size - (total-1)·1,048,576` bytes; in particular a file of 10,485,761
bytes yields 11 chunks — ten of 1,048,576 bytes and a final chunk of one
byte. -/
theorem encoder_framing (md : FileMetadata) (bytes : List Nat)
    (hlen : bytes.length = md.size) :
    (md.size < CHUNK_THRESHOLD →
      encode_file md bytes =
        Sum.inl { filename := md.filename, size := md.size,
                  checksum := md.checksum,
                  timestamp_sec := md.timestamp_sec,
                  timestamp_nsec := md.timestamp_nsec, data := bytes }) ∧
    (CHUNK_THRESHOLD ≤ md.size →
      ∃ cs, encode_file md bytes = Sum.inr cs ∧
        cs.length = (md.size + CHUNK_SIZE - 1) / CHUNK_SIZE ∧
        ∀ i, ∀ hi : i < cs.length,
          (cs.get ⟨i, hi⟩).chunk_id = i ∧
          (cs.get ⟨i, hi⟩).total_chunks = cs.length ∧
          (cs.get ⟨i, hi⟩).chunk_checksum = crc32 (cs.get ⟨i, hi⟩).data ∧
          (cs.get ⟨i, hi⟩).data.length =
            (if i + 1 < cs.length then CHUNK_SIZE
             else md.size - (cs.length - 1) * CHUNK_SIZE)) ∧
    (md.size = 10485761 →
      ∃ cs, encode_file md bytes = Sum.inr cs ∧ cs.length = 11 ∧
        ∀ i, ∀ hi : i < cs.length,
          (cs.get ⟨i, hi⟩).data.length = (if i < 10 then 1048576 else 1)) := by
  refine ⟨?_, ?_, ?_⟩
  · intro h
    simp [encode_file, h]
  · intro h
    exact encode_chunks_spec md bytes hlen h
  · intro hsz
    obtain ⟨cs, henc, hle, hper⟩ := encode_chunks_spec md bytes hlen
      (by rw [hsz]; decide)
    have h11 : cs.length = 11 := by
      rw [hle, hsz]
      decide
    refine ⟨cs, henc, h11, ?_⟩
    intro i hi
    obtain ⟨-, -, -, hlen4⟩ := hper i hi
    rw [hlen4, h11, hsz]
    by_cases hi10 : i < 10
    · rw [if_pos (by omega), if_pos hi10]
      rfl
    · rw [if_neg (by omega), if_neg hi10]
      rfl

/-- Witness for C8 at a concrete small file: three bytes, well below the
threshold, are framed as a single FileContent carrying all of them. -/
theorem encoder_framing_witness :
    (3 : Nat) < CHUNK_THRESHOLD ∧
    encode_file ⟨['b'], 3, 1000, 0, 77⟩ (List.replicate 3 9) =
      Sum.inl ⟨['b'], 3, 77, 1000, 0, List.replicate 3 9⟩ :=
  ⟨by decide,
   (encoder_framing ⟨['b'], 3, 1000, 0, 77⟩ (List.replicate 3 9) rfl).1
     (by decide)⟩
